import Mathlib

/-!
Shallow embedding of `force_push_scanner.py` (the force-push secret scanner)
and proofs of the specification claims about it.

Modelling conventions:
- Pure Python string manipulation is re-implemented over `List Char`
  (`pySplitlines`, `pyStrip`, ...), restricted to the newline/whitespace
  characters that actually occur in the subprocess outputs involved.
- Subprocess calls (`run`) are oracles supplied as function arguments; a call
  either yields a stdout string or a `RunCmdError` carrying the message the
  Python code builds (`Command timed out: ...` / `Command failed (rc): ...`).
- JSON values decoded by `json.loads` are modelled by the inductive `Json`
  (numbers as `Int`: none of the scanner's logic inspects numeric values
  beyond Python truthiness, which coincides on the integers used here).
  A stdout line is modelled as `Option Json`: `none` stands for a line on
  which `json.loads` raises `JSONDecodeError`.
- Python floats in the timeout computation are modelled by `ℚ`; every value
  the computation produces (900 ⬝ {1, 1.5, 2} ⬝ {1, 1.5, 2}, capped) is exactly
  representable in binary floating point, so `ℚ` is a faithful model.
- Exceptions other than the caught ones are modelled with `Except`:
  `PyExn.attributeError` stands for the `AttributeError` raised by calling
  `.get` on a non-dict value, which no handler in the scanner catches.
-/

namespace ForcePushScanner

/-! ## Python string helpers -/

/-- Whether `pre` is a prefix of `l` (used to implement substring search,
modelling the Python `in` operator on strings). -/
def listPrefixOf : List Char → List Char → Bool
  | [], _ => true
  | _ :: _, [] => false
  | a :: as, b :: bs => a == b && listPrefixOf as bs

/-- Whether `needle` occurs as a contiguous sublist of the second argument. -/
def listContainsSub (needle : List Char) : List Char → Bool
  | [] => listPrefixOf needle []
  | c :: cs => listPrefixOf needle (c :: cs) || listContainsSub needle cs

/-- Python `needle in hay` on strings. -/
def strContains (hay needle : String) : Bool :=
  listContainsSub needle.toList hay.toList

/-- Characters treated as whitespace by Python `str.strip()` (restricted to
the ASCII whitespace that occurs in the scanner's inputs). -/
def pyIsWs (c : Char) : Bool :=
  c == ' ' || c == '\t' || c == '\n' || c == '\r' || c == '\x0b' || c == '\x0c'

/-- Drop characters satisfying `p` from both ends of a character list. -/
def listStripBy (p : Char → Bool) (l : List Char) : List Char :=
  ((l.dropWhile p).reverse.dropWhile p).reverse

/-- Python `str.strip()` (no arguments: strips whitespace). -/
def pyStrip (s : String) : String :=
  ⟨listStripBy pyIsWs s.toList⟩

/-- Python `str.strip('\n')`. -/
def pyStripNl (s : String) : String :=
  ⟨listStripBy (fun c => c == '\n') s.toList⟩

/-- Accumulator-style splitting of a character list at newline characters. -/
def splitlinesAux : List Char → List Char → List String
  | acc, [] => if acc.isEmpty then [] else [⟨acc.reverse⟩]
  | acc, '\n' :: rest => ⟨acc.reverse⟩ :: splitlinesAux [] rest
  | acc, c :: rest => splitlinesAux (c :: acc) rest

/-- Python `str.splitlines()` for strings whose only line separator is
`'\n'` (the case for the git subprocess outputs the scanner consumes):
splits at newlines and does not produce a trailing empty line. -/
def pySplitlines (s : String) : List String :=
  splitlinesAux [] s.toList

/-- Whether `c` matches the character class `[0-9a-f]`. -/
def isShaChar (c : Char) : Bool :=
  (('0' ≤ c) && (c ≤ '9')) || (('a' ≤ c) && (c ≤ 'f'))

/-- Python `_SHA_RE.fullmatch(s)` for `_SHA_RE = ^[0-9a-f]{7,40}$`. -/
def shaFullmatch (s : String) : Bool :=
  (7 ≤ s.length) && (s.length ≤ 40) && s.toList.all isShaChar

/-! ## JSON values as decoded by `json.loads` -/

/-- JSON value as produced by `json.loads` on one stdout line. -/
inductive Json where
  | null : Json
  | bool (b : Bool) : Json
  | num (n : Int) : Json
  | str (s : String) : Json
  | arr (l : List Json) : Json
  | obj (l : List (String × Json)) : Json

/-- Python dict lookup on a decoded JSON object (`json.loads` keeps the last
occurrence of a duplicated key, hence `getLast?` over matching pairs). -/
def jGet (d : List (String × Json)) (k : String) : Option Json :=
  ((d.filter (fun p => p.1 == k)).map (fun p => p.2)).getLast?

/-- Python `d.get(k, default)`. -/
def jGetD (d : List (String × Json)) (k : String) (dflt : Json) : Json :=
  (jGet d k).getD dflt

/-- Python truthiness of a JSON value. -/
def pyTruthy : Json → Bool
  | .null => false
  | .bool b => b
  | .num n => n != 0
  | .str s => s.length != 0
  | .arr l => !l.isEmpty
  | .obj l => !l.isEmpty

/-- Python truthiness of a `d.get(k)` result (`None` when the key is absent). -/
def truthyOpt : Option Json → Bool
  | none => false
  | some j => pyTruthy j

/-- Exceptions the scanner does not catch where they arise. -/
inductive PyExn where
  | attributeError : PyExn
deriving DecidableEq, Repr

/-! ## ScanInvoker output filtering (`scan_with_trufflehog`, lines 236-244)

```
for line in stdout.splitlines():
    with suppress(json.JSONDecodeError):
        data = json.loads(line)
        if (data.get('Verified', False) and
            data.get('DetectorName') and
            data.get('SourceMetadata')):
            findings.append(data)
```
-/

/-- Filter condition applied to a decoded JSON object before it is kept as a
finding. -/
def keepFindingCond (d : List (String × Json)) : Bool :=
  pyTruthy (jGetD d "Verified" (.bool false)) &&
  truthyOpt (jGet d "DetectorName") &&
  truthyOpt (jGet d "SourceMetadata")

/-- Whether a decoded JSON value passes the finding filter (a non-object
value never does: it raises instead, see `collectFindings`). -/
def keepFinding : Json → Bool
  | .obj d => keepFindingCond d
  | _ => false

/-- Per-line processing of the tool's stdout: a line on which `json.loads`
raises (`none`) is silently skipped (`suppress(json.JSONDecodeError)`);
a line decoding to a non-object raises `AttributeError` at `data.get`,
which no handler catches; an object is kept iff it passes the filter. -/
def collectFindings : List (Option Json) → Except PyExn (List Json)
  | [] => .ok []
  | none :: rest => collectFindings rest
  | some j :: rest =>
    match j with
    | .obj d => do
        let tail ← collectFindings rest
        pure (if keepFindingCond d then .obj d :: tail else tail)
    | _ => .error .attributeError

/-! ## Adaptive timeout (`estimate_repo_scan_time`, lines 157-179) -/

/-- Timeout estimate from the commit count and the measured workspace size in
megabytes (`none` when the size computation raised, in which case the size
factor block is skipped entirely). -/
def estimateRepoScanTime (commitCount : Nat) (sizeMb : Option ℚ) : ℚ :=
  let base : ℚ := 900
  let base := if commitCount > 100 then base * 2
              else if commitCount > 50 then base * 1.5
              else base
  let base := match sizeMb with
    | some s => if s > 500 then base * 2 else if s > 100 then base * 1.5 else base
    | none => base
  min base 3600

/-- Commit-count factor as the specification words it. -/
def specCommitFactor (commitCount : Nat) : ℚ :=
  if commitCount > 100 then 2 else if commitCount > 50 then 1.5 else 1

/-- Workspace-size factor as the specification words it (1 when the size
measurement fails). -/
def specSizeFactor : Option ℚ → ℚ
  | some s => if s > 500 then 2 else if s > 100 then 1.5 else 1
  | none => 1

/-! ## `run` subprocess outcomes and `RunCmdError` messages (lines 128-154)

`run` raises `RunCmdError` with message
`Command failed (rc): <cmd>\n<stderr.strip()>` on a non-zero exit status and
`Command timed out: <cmd>` on a timeout. -/

/-- Outcome of one `run(...)` invocation of the external tool. -/
inductive RunResult where
  | ok (lines : List (Option Json)) : RunResult
  | timedOut : RunResult
  | failed (rc : Int) (stderr : String) : RunResult

/-- The `str(err)` of the `RunCmdError` raised for a failing invocation
(`cmd` is the space-joined command line). -/
def runCmdErrorMsg (cmd : String) : RunResult → String
  | .ok _ => ""
  | .timedOut => "Command timed out: " ++ cmd
  | .failed rc stderr =>
      "Command failed (" ++ toString rc ++ "): " ++ cmd ++ "\n" ++ pyStrip stderr

/-! ## ScanInvoker retry loop (`scan_with_trufflehog`, lines 211-253)

```
timeouts = [estimated_timeout, estimated_timeout * 2, estimated_timeout * 3]
for attempt in range(max_retries + 1):
    try:
        timeout_seconds = timeouts[min(attempt, len(timeouts) - 1)]
        ...
        stdout = run(trufflehog_cmd, timeout_seconds=timeout_seconds)
        findings = ...filter...
        return findings
    except RunCmdError as err:
        if "Command timed out" in str(err) and attempt < max_retries:
            continue
        else:
            return []
```
-/

/-- `timeouts[min(attempt, len(timeouts) - 1)]`. -/
def timeoutFor (estT : ℚ) (attempt : Nat) : ℚ :=
  if attempt == 0 then estT else if attempt == 1 then estT * 2 else estT * 3

/-- Retry loop of `scan_with_trufflehog`. The tool invocation is the oracle
`outcomes` (indexed by attempt number); the returned trace lists, per attempt
actually made, its attempt index and the timeout budget passed to `run`.
An `AttributeError` from the output filter propagates (it is not a
`RunCmdError`). `fuel` starts at `maxRetries + 1`, the number of loop
iterations of `range(max_retries + 1)`. -/
def scanAttempts (outcomes : Nat → RunResult) (cmd : String) (estT : ℚ)
    (maxRetries : Nat) : Nat → Nat → List (Nat × ℚ) × Except PyExn (List Json)
  | 0, _ => ([], .ok [])
  | fuel + 1, attempt =>
    let t := timeoutFor estT attempt
    match outcomes attempt with
    | .ok lines => ([(attempt, t)], collectFindings lines)
    | r =>
      if strContains (runCmdErrorMsg cmd r) "Command timed out" && attempt < maxRetries then
        let rest := scanAttempts outcomes cmd estT maxRetries fuel (attempt + 1)
        ((attempt, t) :: rest.1, rest.2)
      else
        ([(attempt, t)], .ok [])

/-- `scan_with_trufflehog` with its default `max_retries = 2` (the only value
any call site uses), given the base timeout estimate `estT` computed by
`estimate_repo_scan_time`. -/
def scanWithTrufflehog (outcomes : Nat → RunResult) (cmd : String) (estT : ℚ) :
    List (Nat × ℚ) × Except PyExn (List Json) :=
  scanAttempts outcomes cmd estT 2 3 0

/-! ## BaseCommitResolver (`identify_base_commit`, lines 401-417)

```
run(["git", "fetch", "origin", since_commit], cwd=repo_path)
output = run(["git", "rev-list", since_commit], cwd=repo_path)
for commit in output.splitlines():
    commit = commit.strip('\n')
    if run(["git", "branch", "--contains", commit, "--all"], cwd=repo_path):
        if commit != since_commit:
            return commit
        try:
            c = run(["git", "rev-list", commit + "~1", "-n", "1"], cwd=repo_path)
            return c.strip('\n')
        except RunCmdError:
            return ""
    continue
return ""
```
-/

/-- Oracle for the four git subprocess invocations of `identify_base_commit`;
an `error` is a raised `RunCmdError` carrying its message. -/
structure GitRepo where
  fetch : String → Except String Unit
  revList : String → Except String String
  branchContains : String → Except String String
  revListParent1 : String → Except String String

/-- Loop body of `identify_base_commit` over the `rev-list` output lines. -/
def ibcLoop (g : GitRepo) (since : String) : List String → Except String String
  | [] => .ok ""
  | line :: rest => do
    let commit := pyStripNl line
    let bc ← g.branchContains commit
    if bc ≠ "" then
      if commit ≠ since then
        .ok commit
      else
        match g.revListParent1 commit with
        | .ok c => .ok (pyStripNl c)
        | .error _ => .ok ""
    else
      ibcLoop g since rest

/-- `identify_base_commit`: errors of `fetch`, `rev-list` and
`branch --contains` propagate; only the parent lookup's error is caught. -/
def identifyBaseCommit (g : GitRepo) (since : String) : Except String String := do
  let _ ← g.fetch since
  let out ← g.revList since
  ibcLoop g since (pySplitlines out)

/-! ## FindingsSink (`write_finding_to_file`, lines 420-432, and the file
lifecycle in `scan_commits`, lines 579-635)

The file content is modelled at the granularity of the chunks the code
writes: the opening `[`, separating commas, serialized findings, and the
closing `]`. A failing append is caught inside `write_finding_to_file`
(`except Exception`), leaves the count unchanged and is only logged. -/

/-- One chunk of the findings file. -/
inductive Chunk where
  | openB : Chunk
  | comma : Chunk
  | item (j : Json) : Chunk
  | closeB : Chunk

/-- State of the findings sink: `_findings_count` plus the file content. -/
structure SinkState where
  count : Nat
  chunks : List Chunk

/-- `write_finding_to_file`: under the lock, append `',\n'` when
`_findings_count > 0` followed by the serialized finding, then increment the
count; `ok` is whether the file write succeeds — on failure the exception is
caught, the count stays unchanged and the error is logged. -/
def writeFindingToFile (st : SinkState) (j : Json) (ok : Bool) : SinkState :=
  match ok with
  | true =>
    { count := st.count + 1,
      chunks := st.chunks ++ ((if 0 < st.count then [Chunk.comma] else []) ++ [Chunk.item j]) }
  | false => st

/-- The append phase of a run: `scan_commits` resets `_findings_count` to 0,
writes `'[\n'`, then the workers perform the given append attempts. -/
def sinkAppendPhase (attempts : List (Json × Bool)) : SinkState :=
  attempts.foldl (fun st a => writeFindingToFile st a.1 a.2) ⟨0, [Chunk.openB]⟩

/-- Findings file at the end of a run: present on disk or deleted. -/
structure FileState where
  present : Bool
  chunks : List Chunk

/-- Full file lifecycle of `scan_commits`: initialize with `'[\n'`, run the
append attempts, append `'\n]'`, and delete the file when the count is 0. -/
def sinkRun (attempts : List (Json × Bool)) : FileState :=
  let st := sinkAppendPhase attempts
  { present := st.count > 0, chunks := st.chunks ++ [Chunk.closeB] }

/-! ## NotificationGate (`send_immediate_notification`, lines 52-113)

The whole body runs inside `try: ... except Exception`, so any exception is
caught and only logged. Validation happens first; then, under the lock, the
check-and-insert on `_notified_orgs`; then the environment configuration is
read, and without a configured chat id or email the function returns (with
the organization already marked); the external notifier (`subprocess.Popen`)
is only dispatched when the notification script exists on disk. -/

/-- Notification environment: `TELEGRAM_CHAT_ID`, `NOTIFICATION_EMAIL`, and
whether `os.path.exists(notification_script)` holds. -/
structure NotifyEnv where
  chatId : String
  email : String
  scriptExists : Bool

/-- Python `value.get(key, {})` where a non-dict `value` raises
`AttributeError`. -/
def pyGetAttr (j : Json) (k : String) : Except PyExn Json :=
  match j with
  | .obj d => .ok (jGetD d k (.obj []))
  | _ => .error .attributeError

/-- The validation prefix of `send_immediate_notification`: requires a truthy
`Verified`, a truthy `DetectorName`, truthy `Raw` or `RawV2`, and a truthy
`SourceMetadata.Data.Git.commit`; a non-dict on the `.get` chain raises. -/
def notifyValid (finding : Json) : Except PyExn Bool :=
  match finding with
  | .obj d =>
    if !pyTruthy (jGetD d "Verified" (.bool false)) then .ok false
    else if !truthyOpt (jGet d "DetectorName") then .ok false
    else if !(truthyOpt (jGet d "Raw") || truthyOpt (jGet d "RawV2")) then .ok false
    else do
      let sm := jGetD d "SourceMetadata" (.obj [])
      let dat ← pyGetAttr sm "Data"
      let git ← pyGetAttr dat "Git"
      match git with
      | .obj gd => .ok (truthyOpt (jGet gd "commit"))
      | _ => .error .attributeError
  | _ => .error .attributeError

/-- One call to `send_immediate_notification`: given the current notified set
(as a list of organization ids), returns the new set and whether the external
notifier was dispatched. A raised exception is caught by the surrounding
`except Exception` and leaves the state unchanged. -/
def sendImmediateNotification (env : NotifyEnv) (st : List String) (org : String)
    (finding : Json) : List String × Bool :=
  match notifyValid finding with
  | .error _ => (st, false)
  | .ok false => (st, false)
  | .ok true =>
    if org ∈ st then (st, false)
    else
      let st' := org :: st
      if env.chatId ≠ "" ∨ env.email ≠ "" then
        if env.scriptExists then (st', true) else (st', false)
      else (st', false)

/-- A whole run of notification calls (in the order the lock serializes
them), starting from the notified set `st`; returns the final set and the
list of organizations for which the notifier fired, in order. -/
def notifyRun (env : NotifyEnv) : List (String × Json) → List String →
    List String × List String
  | [], st => (st, [])
  | (org, f) :: rest, st =>
    let step := sendImmediateNotification env st org f
    let tail := notifyRun env rest step.1
    (tail.1, (if step.2 then [org] else []) ++ tail.2)

/-- Number of times the notifier fired for `org` in a run started from the
empty notified set (`reset_notification_tracking`). -/
def fireCount (env : NotifyEnv) (calls : List (String × Json)) (org : String) : Nat :=
  ((notifyRun env calls []).2.filter (fun o => o == org)).length

/-! ## CommitValidator (`_validate_row`, lines 265-290, and
`_gather_from_iter`, lines 293-306)

`terminate` prints and exits the process; it is modelled as `Except.error`
carrying the message, so an `error` result means the whole batch is rejected
and the program terminates before any scanning starts. -/

/-- A row value as it comes from the CSV reader (a string) or the SQLite
driver (an integer). -/
inductive PyVal where
  | s (v : String) : PyVal
  | i (v : Int) : PyVal

/-- Python `str(value)`. -/
def pyValStr : PyVal → String
  | .s v => v
  | .i v => toString v

/-- Decimal value of a digit run. -/
def digitsToNat (l : List Char) : Nat :=
  l.foldl (fun n c => n * 10 + (c.toNat - '0'.toNat)) 0

/-- Python `int(value)`: an integer passes through; a string is stripped of
surrounding whitespace and must be an optionally signed run of digits
(digit-group underscores are not modelled; none occur in the datasets). -/
def pyValInt : PyVal → Option Int
  | .i v => some v
  | .s v =>
    let t := (pyStrip v).toList
    let core := match t with
      | '+' :: rest => (rest, (1 : Int))
      | '-' :: rest => (rest, (-1 : Int))
      | rest => (rest, (1 : Int))
    if core.1.isEmpty || !core.1.all Char.isDigit then none
    else some (core.2 * (digitsToNat core.1 : Int))

/-- An input row: field name to value. -/
def Row := List (String × PyVal)

/-- Lookup of a row field (CSV/SQLite rows have unique keys). -/
def rowGet (r : Row) (k : String) : Option PyVal :=
  (r.find? (fun p => p.1 == k)).map (fun p => p.2)

/-- The fields `_EXPECTED_FIELDS` requires. -/
def expectedFields : List String := ["repo_org", "repo_name", "before", "timestamp"]

/-- `_validate_row`: checks required fields, non-empty stripped organization
equal to `input_org`, non-empty repository name, SHA-shaped `before`, and an
integer-convertible timestamp; any violation raises `ValueError`, which the
caller turns into `terminate`. -/
def validateRow (inputOrg : String) (row : Row) (idx : Nat) :
    Except String (String × String × String × Int) :=
  if !(expectedFields.all (fun k => (rowGet row k).isSome)) then
    .error ("Row " ++ toString idx ++ " is missing fields")
  else
    let repoOrg := pyStrip (pyValStr ((rowGet row "repo_org").getD (.s "")))
    let repoName := pyStrip (pyValStr ((rowGet row "repo_name").getD (.s "")))
    let before := pyStrip (pyValStr ((rowGet row "before").getD (.s "")))
    let ts := (rowGet row "timestamp").getD (.s "")
    if repoOrg = "" then .error ("Row " ++ toString idx ++ " – repo_org is empty")
    else if repoOrg ≠ inputOrg then
      .error ("Row " ++ toString idx ++ " – repo_org does not match input_org")
    else if repoName = "" then .error ("Row " ++ toString idx ++ " – repo_name is empty")
    else if !shaFullmatch before then
      .error ("Row " ++ toString idx ++ " – before does not look like a commit SHA")
    else
      match pyValInt ts with
      | some n => .ok (repoOrg, repoName, before, n)
      | none => .error ("Row " ++ toString idx ++ " – timestamp must be int")

/-- Accumulating loop of `_gather_from_iter`: one `(url, before, date)` entry
per validated row, in input order (the `defaultdict` grouping by URL preserves
exactly these entries; only emptiness and order matter for the claims). -/
def gatherLoop (inputOrg : String) : List Row → Nat →
    Except String (List (String × String × Int))
  | [], _ => .ok []
  | row :: rest, idx =>
    match validateRow inputOrg row idx with
    | .error e => .error e
    | .ok (ro, rn, before, ts) => do
      let tail ← gatherLoop inputOrg rest (idx + 1)
      pure (("https://github.com/" ++ ro ++ "/" ++ rn, before, ts) :: tail)

/-- `_gather_from_iter`: validate every row (`enumerate(rows, 1)` starts the
index at 1); terminate on the first invalid row, and terminate when the
resulting mapping is empty. -/
def gatherFromIter (inputOrg : String) (rows : List Row) :
    Except String (List (String × String × Int)) := do
  let entries ← gatherLoop inputOrg rows 1
  if entries.isEmpty then
    .error "No force-push events found for that user – dataset empty"
  else
    .ok entries

/-! ## RepositoryScanWorker (`scan_single_repo`, lines 435-534)

```
try:
    run(["git", "clone", ...], cwd=tmp_path)
    ...git config commands, each failure swallowed...
except RunCmdError as err:
    return repo_url, 0, 0
for c in commits:
    before = c["before"]
    if not _SHA_RE.fullmatch(before):
        continue
    commit_counter += 1
    try:
        since_commit = identify_base_commit(tmp_path, before)
    except RunCmdError as err:
        if "fatal: remote error: upload-pack: not our ref" in str(err):
            continue
        else:
            break
    findings = scan_with_trufflehog(...)
    if findings: ...write, count, print, notify...
return repo_url, commit_counter, repo_findings
```
The `finally` block only removes the temporary directory (with retries) and
never changes the returned value; the per-command `git config` failures are
swallowed individually and do not affect the result either. -/

/-- The error message git emits when a fetched ref is unknown to the remote,
as matched by `scan_single_repo`. -/
def notOurRefMarker : String := "fatal: remote error: upload-pack: not our ref"

/-- Outcome of the body of the event loop for the events of one repository.
`attempted` / `scanned` list the positions (0-based) of the events for which
base resolution / the secret scan ran; `findingsWritten` counts the findings
persisted; `aborted` records a `break`. -/
structure LoopResult where
  counter : Nat
  attempted : List Nat
  scanned : List Nat
  findingsWritten : Nat
  aborted : Bool

/-- Event loop of `scan_single_repo` over the events' `before` fields.
`resolve i` is the outcome of `identify_base_commit` for the event at
position `i` (an `error` is a raised `RunCmdError` with its message);
`scan i` is the outcome of `scan_with_trufflehog` there (an `error` is a
propagating non-`RunCmdError` exception). -/
def eventLoop (resolve : Nat → Except String String)
    (scan : Nat → Except PyExn (List Json)) :
    List String → Nat → Except PyExn LoopResult
  | [], _ => .ok ⟨0, [], [], 0, false⟩
  | before :: rest, idx =>
    if !shaFullmatch before then
      eventLoop resolve scan rest (idx + 1)
    else
      match resolve idx with
      | .error msg =>
        if strContains msg notOurRefMarker then
          (eventLoop resolve scan rest (idx + 1)).map fun r =>
            { r with counter := r.counter + 1, attempted := idx :: r.attempted }
        else
          .ok ⟨1, [idx], [], 0, true⟩
      | .ok _ =>
        match scan idx with
        | .error e => .error e
        | .ok fs =>
          (eventLoop resolve scan rest (idx + 1)).map fun r =>
            { counter := r.counter + 1, attempted := idx :: r.attempted,
              scanned := idx :: r.scanned,
              findingsWritten := fs.length + r.findingsWritten,
              aborted := r.aborted }

/-- `scan_single_repo`: a clone failure returns `(repo_url, 0, 0)`
immediately; otherwise the event loop runs and the worker returns
`(repo_url, commit_counter, repo_findings)`. An `error` result is an
exception propagating out of the worker (collected by the orchestrator's
`future.result()`). -/
def scanSingleRepo (repoUrl : String) (clone : Except String Unit)
    (resolve : Nat → Except String String) (scan : Nat → Except PyExn (List Json))
    (befores : List String) : Except PyExn (String × Nat × Nat) :=
  match clone with
  | .error _ => .ok (repoUrl, 0, 0)
  | .ok _ =>
    (eventLoop resolve scan befores 0).map fun r =>
      (repoUrl, r.counter, r.findingsWritten)

/-! ## ScanOrchestrator aggregation (`scan_commits`, lines 594-614)

```
for future in concurrent.futures.as_completed(future_to_repo):
    try:
        _, commits_scanned, repo_findings = future.result()
        total_commits_scanned += commits_scanned
        completed_repos += 1
        ...
    except Exception as exc:
        ...log...
```
-/

/-- Aggregation of completed repository tasks: each task either produced a
`(repo_url, commits_scanned, repo_findings)` triple or raised. Returns
`(completed_repos, total_commits_scanned)`. -/
def aggregateTasks : List (Except PyExn (String × Nat × Nat)) → Nat × Nat
  | [] => (0, 0)
  | .ok (_, c, _) :: rest =>
    let t := aggregateTasks rest
    (t.1 + 1, t.2 + c)
  | .error _ :: rest => aggregateTasks rest

/-- The successfully completed tasks of a run. -/
def okTasks (tasks : List (Except PyExn (String × Nat × Nat))) :
    List (String × Nat × Nat) :=
  tasks.filterMap (fun t => match t with | .ok r => some r | .error _ => none)

/-! ## Derived accessors and concrete instances used in the theorems -/

/-- The commit lookup
`finding.get('SourceMetadata', {}).get('Data', {}).get('Git', {}).get('commit')`
performed by `send_immediate_notification` and `_print_formatted_finding` on
a finding object (an `error` is the `AttributeError` a non-dict level
raises). -/
def sourceMetadataCommit (d : List (String × Json)) : Except PyExn (Option Json) := do
  let sm := jGetD d "SourceMetadata" (.obj [])
  let dat ← pyGetAttr sm "Data"
  let git ← pyGetAttr dat "Git"
  match git with
  | .obj gd => .ok (jGet gd "commit")
  | _ => .error .attributeError

/-- A tool-output object that passes the `scan_with_trufflehog` filter while
carrying no commit source metadata and a non-boolean `Verified` value. -/
def c1Obj : List (String × Json) :=
  [("Verified", .num 1), ("DetectorName", .str "AWS"),
   ("SourceMetadata", .obj [("Data", .obj [])])]

/-- Tool-invocation oracle whose first attempt exits non-zero (a
`CalledProcessError`, not a timeout) with a stderr that happens to contain
the string `Command timed out`, and whose second attempt succeeds. -/
def c3Outcomes : Nat → RunResult
  | 0 => .failed 1 "blah Command timed out blah"
  | _ => .ok []

/-- Git oracle: candidate `aaaaaaa` is reachable from a live branch and its
parent lookup succeeds with `bbbbbbb`. -/
def gitParentOk : GitRepo where
  fetch := fun _ => .ok ()
  revList := fun r => if r == "aaaaaaa" then .ok "aaaaaaa\nbbbbbbb\n" else .ok ""
  branchContains := fun c => .ok (if c == "aaaaaaa" then "* main\n" else "")
  revListParent1 := fun c => if c == "aaaaaaa" then .ok "bbbbbbb\n" else .error "e"

/-- Git oracle: candidate `aaaaaaa` is reachable from a live branch but the
parent lookup raises `RunCmdError`. -/
def gitParentFails : GitRepo where
  fetch := fun _ => .ok ()
  revList := fun r => if r == "aaaaaaa" then .ok "aaaaaaa\nbbbbbbb\n" else .ok ""
  branchContains := fun c => .ok (if c == "aaaaaaa" then "* main\n" else "")
  revListParent1 := fun _ => .error "Command failed (128): git rev-list"

/-- Git oracle: no commit in the candidate's ancestor chain is contained in
any branch. -/
def gitNoneLive : GitRepo where
  fetch := fun _ => .ok ()
  revList := fun r => if r == "aaaaaaa" then .ok "aaaaaaa\nbbbbbbb\n" else .ok ""
  branchContains := fun _ => .ok ""
  revListParent1 := fun _ => .error "e"

/-- A finding carrying every field the notification validation requires. -/
def notifyOkFinding : Json :=
  .obj [("Verified", .bool true), ("DetectorName", .str "AWS"),
        ("Raw", .str "secret"),
        ("SourceMetadata", .obj [("Data",
           .obj [("Git", .obj [("commit", .str "deadbeefcafe")])])])]

/-- A finding that passes the `scan_with_trufflehog` filter (so it is
persisted and fed to the notification gate) but carries neither `Raw` nor
`RawV2`, so the notification validation rejects it. -/
def notifyNoRawFinding : Json :=
  .obj [("Verified", .bool true), ("DetectorName", .str "AWS"),
        ("SourceMetadata", .obj [("Data",
           .obj [("Git", .obj [("commit", .str "deadbeefcafe")])])])]

/-- Notification environment with a Telegram chat id configured and the
notifier script present. -/
def envConfigured : NotifyEnv := ⟨"12345", "", true⟩

/-- Notification environment with no notification method configured. -/
def envUnconfigured : NotifyEnv := ⟨"", "", true⟩

/-- Notification environment with a chat id configured but the notifier
script missing from disk. -/
def envNoScript : NotifyEnv := ⟨"12345", "", false⟩

/-- A well-formed input row whose `repo_org` is `otherorg`. -/
def rowOtherOrg : Row :=
  [("repo_org", .s "otherorg"), ("repo_name", .s "repo1"),
   ("before", .s "abc1234"), ("timestamp", .s "1700000000")]

/-! # Theorems -/

/-- C4: for every repository and commit list, `estimate_repo_scan_time`
equals the 900-second baseline multiplied by the commit-count factor
(2 if more than 100 commits, else 1.5 if more than 50, else 1) and the
workspace-size factor (2 if more than 500 MB, else 1.5 if more than 100 MB,
else 1; 1 if the size measurement fails), capped at 3600 seconds; hence the
result always lies between 900 and 3600 seconds. -/
theorem estimate_repo_scan_time_spec (n : Nat) (sz : Option ℚ) :
    estimateRepoScanTime n sz = min (900 * specCommitFactor n * specSizeFactor sz) 3600 ∧
    900 ≤ estimateRepoScanTime n sz ∧ estimateRepoScanTime n sz ≤ 3600 := by
  rcases sz with _ | s <;>
    simp only [estimateRepoScanTime, specCommitFactor, specSizeFactor] <;>
    split_ifs <;> norm_num [min_def]

/-- Every finding an `.ok` result of `collectFindings` contains passes the
filter. -/
theorem collectFindings_keep (lines : List (Option Json)) :
    ∀ res, collectFindings lines = .ok res → ∀ j ∈ res, keepFinding j = true := by
  induction lines with
  | nil =>
    intro res h j hj
    simp only [collectFindings, Except.ok.injEq] at h
    subst h; simp at hj
  | cons hd tl ih =>
    intro res h j hj
    rcases hd with _ | jv
    · exact ih res h j hj
    · cases jv with
      | obj d =>
        rw [collectFindings] at h
        cases h' : collectFindings tl with
        | error e => rw [h'] at h; simp [Except.bind] at h
        | ok tail =>
          rw [h'] at h
          dsimp only [bind, Except.bind] at h
          replace h := Except.ok.inj h
          subst h
          by_cases hc : keepFindingCond d = true
          · rw [if_pos hc] at hj
            rcases List.mem_cons.mp hj with rfl | hj'
            · simpa [keepFinding] using hc
            · exact ih tail h' j hj'
          · rw [if_neg hc] at hj
            exact ih tail h' j hj
      | null => simp [collectFindings] at h
      | bool b => simp [collectFindings] at h
      | num n => simp [collectFindings] at h
      | str s => simp [collectFindings] at h
      | arr l => simp [collectFindings] at h

/-- Every finding an `.ok` result of the retry loop contains passes the
filter (a failed attempt contributes the empty list). -/
theorem scanAttempts_keep (o : Nat → RunResult) (c : String) (t : ℚ) (m : Nat) :
    ∀ fuel a fs, (scanAttempts o c t m fuel a).2 = .ok fs →
      ∀ j ∈ fs, keepFinding j = true := by
  intro fuel
  induction fuel with
  | zero =>
    intro a fs h j hj
    simp only [scanAttempts, Except.ok.injEq] at h
    subst h; simp at hj
  | succ fuel ih =>
    intro a fs h j hj
    rw [scanAttempts] at h
    cases ho : o a with
    | ok lines =>
      rw [ho] at h
      exact collectFindings_keep lines fs h j hj
    | timedOut =>
      rw [ho] at h
      dsimp only at h
      by_cases hr : (strContains (runCmdErrorMsg c .timedOut) "Command timed out" &&
          decide (a < m)) = true
      · rw [if_pos hr] at h
        exact ih (a + 1) fs h j hj
      · rw [if_neg hr] at h
        replace h := Except.ok.inj h
        subst h; simp at hj
    | failed rc stderr =>
      rw [ho] at h
      dsimp only at h
      by_cases hr : (strContains (runCmdErrorMsg c (.failed rc stderr)) "Command timed out" &&
          decide (a < m)) = true
      · rw [if_pos hr] at h
        exact ih (a + 1) fs h j hj
      · rw [if_neg hr] at h
        replace h := Except.ok.inj h
        subst h; simp at hj

/-- C1 (amended): whenever `scan_with_trufflehog` returns a findings list,
every element is a JSON object whose `Verified` field is truthy, whose
`DetectorName` field is truthy, and whose `SourceMetadata` field is present
and truthy — in particular no returned finding has `Verified` equal to the
boolean `false` — and a line on which JSON decoding fails is silently
skipped. (The code does not require nested commit metadata inside
`SourceMetadata`, nor that `Verified` be the boolean `true`; see the
counterexample.) -/
theorem scan_with_trufflehog_filter_spec (outcomes : Nat → RunResult)
    (cmd : String) (estT : ℚ) (fs : List Json)
    (h : (scanWithTrufflehog outcomes cmd estT).2 = .ok fs) :
    (∀ j ∈ fs, ∃ d, j = .obj d ∧
        pyTruthy (jGetD d "Verified" (.bool false)) = true ∧
        truthyOpt (jGet d "DetectorName") = true ∧
        truthyOpt (jGet d "SourceMetadata") = true ∧
        jGet d "Verified" ≠ some (.bool false)) ∧
    (∀ rest, collectFindings (none :: rest) = collectFindings rest) := by
  constructor
  · intro j hj
    have hk := scanAttempts_keep outcomes cmd estT 2 3 0 fs h j hj
    cases j with
    | obj d =>
      refine ⟨d, rfl, ?_, ?_, ?_, ?_⟩
      all_goals
        simp only [keepFinding, keepFindingCond, Bool.and_eq_true] at hk
      · exact hk.1.1
      · exact hk.1.2
      · exact hk.2
      · intro hv
        have := hk.1.1
        rw [jGetD, hv] at this
        simp [pyTruthy] at this
    | null => simp [keepFinding] at hk
    | bool b => simp [keepFinding] at hk
    | num n => simp [keepFinding] at hk
    | str s => simp [keepFinding] at hk
    | arr l => simp [keepFinding] at hk
  · intro rest; rfl

/-- C1 witness: a run whose stdout has one undecodable line, one passing
object and one unverified object returns exactly the passing object, which
satisfies the filter conditions. -/
theorem scan_with_trufflehog_filter_spec_witness :
    (∀ j ∈ [Json.obj c1Obj], ∃ d, j = .obj d ∧
        pyTruthy (jGetD d "Verified" (.bool false)) = true ∧
        truthyOpt (jGet d "DetectorName") = true ∧
        truthyOpt (jGet d "SourceMetadata") = true ∧
        jGet d "Verified" ≠ some (.bool false)) ∧
    (∀ rest, collectFindings (none :: rest) = collectFindings rest) :=
  scan_with_trufflehog_filter_spec
    (fun _ => .ok [none, some (.obj c1Obj), some (.obj [("Verified", .bool false)])])
    "trufflehog git" 900 [Json.obj c1Obj] rfl

/-- C1 counterexample: the tool output object `c1Obj` is returned by
`scan_with_trufflehog` although its `SourceMetadata` carries no commit
information (`SourceMetadata.Data.Git.commit` resolves to `None`) and its
`Verified` field is the number 1, not the boolean `true`: the invoker
accepts any truthy `SourceMetadata`, not only ones carrying commit
metadata. -/
theorem scan_with_trufflehog_filter_counterexample :
    (scanWithTrufflehog (fun _ => .ok [some (.obj c1Obj)]) "trufflehog git" 900).2 =
      .ok [.obj c1Obj] ∧
    sourceMetadataCommit c1Obj = .ok none ∧
    jGet c1Obj "Verified" = some (.num 1) :=
  ⟨rfl, rfl, rfl⟩

/-- The retry loop makes at most `fuel` attempts. -/
theorem scanAttempts_length (o : Nat → RunResult) (c : String) (t : ℚ) (m : Nat) :
    ∀ fuel a, (scanAttempts o c t m fuel a).1.length ≤ fuel := by
  intro fuel
  induction fuel with
  | zero => intro a; simp [scanAttempts]
  | succ fuel ih =>
    intro a
    rw [scanAttempts]
    cases o a with
    | ok lines => simp
    | timedOut =>
      dsimp only
      split
      · simpa using ih (a + 1)
      · simp
    | failed rc stderr =>
      dsimp only
      split
      · simpa using ih (a + 1)
      · simp

/-- Every trace entry records the timeout budget `timeouts[min(i, 2)]` of
its attempt index `i`, and attempt indices stay below `a + fuel`. -/
theorem scanAttempts_entries (o : Nat → RunResult) (c : String) (t : ℚ) (m : Nat) :
    ∀ fuel a p, p ∈ (scanAttempts o c t m fuel a).1 →
      p.2 = timeoutFor t p.1 ∧ a ≤ p.1 ∧ p.1 < a + fuel := by
  intro fuel
  induction fuel with
  | zero => intro a p hp; simp [scanAttempts] at hp
  | succ fuel ih =>
    intro a p hp
    rw [scanAttempts] at hp
    cases ho : o a with
    | ok lines =>
      rw [ho] at hp
      dsimp only at hp
      simp only [List.mem_singleton] at hp
      subst hp; exact ⟨rfl, le_refl a, by omega⟩
    | timedOut =>
      rw [ho] at hp
      dsimp only at hp
      split at hp
      · rcases List.mem_cons.mp hp with rfl | h'
        · exact ⟨rfl, le_refl a, by omega⟩
        · have := ih (a + 1) p h'
          exact ⟨this.1, by omega, by omega⟩
      · simp only [List.mem_singleton] at hp
        subst hp; exact ⟨rfl, le_refl a, by omega⟩
    | failed rc stderr =>
      rw [ho] at hp
      dsimp only at hp
      split at hp
      · rcases List.mem_cons.mp hp with rfl | h'
        · exact ⟨rfl, le_refl a, by omega⟩
        · have := ih (a + 1) p h'
          exact ⟨this.1, by omega, by omega⟩
      · simp only [List.mem_singleton] at hp
        subst hp; exact ⟨rfl, le_refl a, by omega⟩

/-- With fuel left, at least one attempt is recorded. -/
theorem scanAttempts_ne_nil (o : Nat → RunResult) (c : String) (t : ℚ) (m : Nat)
    (fuel a : Nat) (hf : 1 ≤ fuel) : (scanAttempts o c t m fuel a).1 ≠ [] := by
  match fuel, hf with
  | fuel + 1, _ =>
    rw [scanAttempts]
    cases ho : o a with
    | ok lines => simp
    | timedOut => dsimp only; split <;> simp
    | failed rc stderr => dsimp only; split <;> simp

/-- Every attempt except the last one recorded in the trace failed with an
error whose message contains the timeout marker (in particular it was not a
successful invocation). -/
theorem scanAttempts_dropLast (o : Nat → RunResult) (c : String) (t : ℚ) (m : Nat) :
    ∀ fuel a, m + 1 ≤ a + fuel →
      ∀ p ∈ (scanAttempts o c t m fuel a).1.dropLast,
        strContains (runCmdErrorMsg c (o p.1)) "Command timed out" = true ∧
        ∀ lines, o p.1 ≠ .ok lines := by
  intro fuel
  induction fuel with
  | zero => intro a hm p hp; simp [scanAttempts] at hp
  | succ fuel ih =>
    intro a hm p hp
    rw [scanAttempts] at hp
    cases ho : o a with
    | ok lines =>
      rw [ho] at hp
      dsimp only at hp
      simp at hp
    | timedOut =>
      rw [ho] at hp
      dsimp only at hp
      split at hp
      · rename_i hcond
        have hlt : a < m := by
          have := (Bool.and_eq_true _ _).mp hcond
          simpa using this.2
        have hrest : (scanAttempts o c t m fuel (a + 1)).1 ≠ [] :=
          scanAttempts_ne_nil o c t m fuel (a + 1) (by omega)
        rcases hr : (scanAttempts o c t m fuel (a + 1)).1 with _ | ⟨r0, rtail⟩
        · exact absurd hr hrest
        · rw [hr] at hp
          rw [List.dropLast_cons₂] at hp
          rcases List.mem_cons.mp hp with rfl | h'
          · have hstr : strContains (runCmdErrorMsg c RunResult.timedOut)
                "Command timed out" = true := by
              have := (Bool.and_eq_true _ _).mp hcond
              exact this.1
            refine ⟨by rw [ho]; exact hstr, ?_⟩
            intro lines hcontra
            rw [ho] at hcontra
            exact RunResult.noConfusion hcontra
          · have := ih (a + 1) (by omega) p (by rw [hr]; exact h')
            exact this
      · simp at hp
    | failed rc stderr =>
      rw [ho] at hp
      dsimp only at hp
      split at hp
      · rename_i hcond
        have hlt : a < m := by
          have := (Bool.and_eq_true _ _).mp hcond
          simpa using this.2
        have hrest : (scanAttempts o c t m fuel (a + 1)).1 ≠ [] :=
          scanAttempts_ne_nil o c t m fuel (a + 1) (by omega)
        rcases hr : (scanAttempts o c t m fuel (a + 1)).1 with _ | ⟨r0, rtail⟩
        · exact absurd hr hrest
        · rw [hr] at hp
          rw [List.dropLast_cons₂] at hp
          rcases List.mem_cons.mp hp with rfl | h'
          · have hstr : strContains (runCmdErrorMsg c (RunResult.failed rc stderr))
                "Command timed out" = true := by
              have := (Bool.and_eq_true _ _).mp hcond
              exact this.1
            refine ⟨by rw [ho]; exact hstr, ?_⟩
            intro lines hcontra
            rw [ho] at hcontra
            exact RunResult.noConfusion hcontra
          · have := ih (a + 1) (by omega) p (by rw [hr]; exact h')
            exact this
      · simp at hp

/-- C3 (amended): `scan_with_trufflehog` makes at most 3 attempts in total;
attempt `k` (`k = 1, 2, 3`) runs with `k` times the base estimated timeout
budget; every attempt except the last recorded one ended in a `RunCmdError`
whose message contains the marker text `Command timed out` (always true of a
timeout, but a failed command whose stderr contains that phrase is also
retried — see the counterexample); and a first-attempt failure whose message
lacks the marker is never retried and yields an empty findings list. -/
theorem scan_with_trufflehog_retry_policy (outcomes : Nat → RunResult)
    (cmd : String) (estT : ℚ) :
    (scanWithTrufflehog outcomes cmd estT).1.length ≤ 3 ∧
    (∀ p ∈ (scanWithTrufflehog outcomes cmd estT).1,
        p.1 < 3 ∧ p.2 = ((p.1 : ℚ) + 1) * estT) ∧
    (∀ p ∈ (scanWithTrufflehog outcomes cmd estT).1.dropLast,
        strContains (runCmdErrorMsg cmd (outcomes p.1)) "Command timed out" = true ∧
        ∀ lines, outcomes p.1 ≠ .ok lines) ∧
    (∀ rc stderr, outcomes 0 = .failed rc stderr →
        strContains (runCmdErrorMsg cmd (.failed rc stderr)) "Command timed out" = false →
        scanWithTrufflehog outcomes cmd estT = ([(0, estT)], .ok [])) := by
  refine ⟨scanAttempts_length outcomes cmd estT 2 3 0, ?_, ?_, ?_⟩
  · intro p hp
    have h := scanAttempts_entries outcomes cmd estT 2 3 0 p hp
    have hlt : p.1 < 3 := by omega
    refine ⟨hlt, ?_⟩
    rw [h.1]
    interval_cases hpv : p.1 <;> simp [timeoutFor] <;> ring
  · exact scanAttempts_dropLast outcomes cmd estT 2 3 0 (by omega)
  · intro rc stderr h0 hstr
    rw [scanWithTrufflehog, scanAttempts, h0]
    dsimp only
    rw [hstr]
    simp [timeoutFor]

/-- C3 witness: a first-attempt non-zero exit whose stderr lacks the marker
text is not retried and yields no findings. -/
theorem scan_with_trufflehog_retry_policy_witness :
    scanWithTrufflehog (fun _ => .failed 1 "boom") "trufflehog git" 900 =
      ([(0, 900)], .ok []) :=
  (scan_with_trufflehog_retry_policy (fun _ => .failed 1 "boom")
    "trufflehog git" 900).2.2.2 1 "boom" rfl (by decide)

/-- C3 counterexample: attempt 0 exits non-zero (a `CalledProcessError`, not
a timeout), but because its stderr contains the text `Command timed out`,
`str(err)` matches the retry test and a second attempt is made — refuting
the claim that a retry happens only when the failure is a timeout. -/
theorem scan_with_trufflehog_retry_policy_counterexample :
    c3Outcomes 0 = .failed 1 "blah Command timed out blah" ∧
    (scanWithTrufflehog c3Outcomes "trufflehog git" 900).1.map Prod.fst = [0, 1] ∧
    (scanWithTrufflehog c3Outcomes "trufflehog git" 900).2 = .ok [] := by
  refine ⟨rfl, by decide, rfl⟩

/-- When no line's commit is contained in any branch, the resolver loop
finishes with the empty sentinel and raises nothing. -/
theorem ibcLoop_none_live (g : GitRepo) (since : String) :
    ∀ lines, (∀ l ∈ lines, g.branchContains (pyStripNl l) = .ok "") →
      ibcLoop g since lines = .ok "" := by
  intro lines
  induction lines with
  | nil => intro _; rfl
  | cons hd tl ih =>
    intro hall
    rw [ibcLoop]
    have hhd := hall hd (List.mem_cons_self hd tl)
    rw [hhd]
    dsimp only [bind, Except.bind]
    simp only [ne_eq, not_true_eq_false, reduceIte]
    exact ih (fun l hl => hall l (List.mem_cons_of_mem hd hl))

/-- C2: `identify_base_commit` (a) given a candidate ref whose first
`rev-list` line is the candidate itself and which is contained in a live
branch, returns the output of the `candidate~1` lookup (the candidate's
immediate parent), not the candidate itself; (b) when that parent lookup
raises, returns the empty `NotFound` sentinel instead of raising; and
(c) when no line of the candidate's ancestor chain is contained in any
branch, returns the empty sentinel without raising. -/
theorem identify_base_commit_spec :
    (∀ (g : GitRepo) (since out l0 bc p : String) (rest : List String),
      g.fetch since = .ok () → g.revList since = .ok out →
      pySplitlines out = l0 :: rest → pyStripNl l0 = since →
      g.branchContains since = .ok bc → bc ≠ "" →
      g.revListParent1 since = .ok p → pyStripNl p ≠ since →
      identifyBaseCommit g since = .ok (pyStripNl p) ∧
        identifyBaseCommit g since ≠ .ok since) ∧
    (∀ (g : GitRepo) (since out l0 bc e : String) (rest : List String),
      g.fetch since = .ok () → g.revList since = .ok out →
      pySplitlines out = l0 :: rest → pyStripNl l0 = since →
      g.branchContains since = .ok bc → bc ≠ "" →
      g.revListParent1 since = .error e →
      identifyBaseCommit g since = .ok "") ∧
    (∀ (g : GitRepo) (since out : String),
      g.fetch since = .ok () → g.revList since = .ok out →
      (∀ l ∈ pySplitlines out, g.branchContains (pyStripNl l) = .ok "") →
      identifyBaseCommit g since = .ok "") := by
  refine ⟨?_, ?_, ?_⟩
  · intro g since out l0 bc p rest hf hrl hsplit hstrip hbc hbcne hp hpne
    have hres : identifyBaseCommit g since = .ok (pyStripNl p) := by
      rw [identifyBaseCommit]
      dsimp only [bind, Except.bind]
      rw [hf, hrl]
      dsimp only
      rw [hsplit, ibcLoop, hstrip, hbc]
      dsimp only [bind, Except.bind]
      rw [if_pos hbcne, if_neg (by simp), hp]
    refine ⟨hres, ?_⟩
    rw [hres]
    intro hcontra
    exact hpne (Except.ok.inj hcontra)
  · intro g since out l0 bc e rest hf hrl hsplit hstrip hbc hbcne hp
    rw [identifyBaseCommit]
    dsimp only [bind, Except.bind]
    rw [hf, hrl]
    dsimp only
    rw [hsplit, ibcLoop, hstrip, hbc]
    dsimp only [bind, Except.bind]
    rw [if_pos hbcne, if_neg (by simp), hp]
  · intro g since out hf hrl hall
    rw [identifyBaseCommit]
    dsimp only [bind, Except.bind]
    rw [hf, hrl]
    dsimp only
    exact ibcLoop_none_live g since (pySplitlines out) hall

/-- C2 witness: the three scenarios at concrete git oracles — candidate
`aaaaaaa` reachable and parent lookup yielding `bbbbbbb`; reachable with a
failing parent lookup; and no ancestor contained in any branch. -/
theorem identify_base_commit_spec_witness :
    (identifyBaseCommit gitParentOk "aaaaaaa" = .ok (pyStripNl "bbbbbbb\n") ∧
      identifyBaseCommit gitParentOk "aaaaaaa" ≠ .ok "aaaaaaa") ∧
    identifyBaseCommit gitParentFails "aaaaaaa" = .ok "" ∧
    identifyBaseCommit gitNoneLive "aaaaaaa" = .ok "" := by
  refine ⟨identify_base_commit_spec.1 gitParentOk "aaaaaaa" "aaaaaaa\nbbbbbbb\n"
      "aaaaaaa" "* main\n" "bbbbbbb\n" ["bbbbbbb"]
      rfl rfl (by decide) (by decide) rfl (by decide) rfl (by decide),
    identify_base_commit_spec.2.1 gitParentFails "aaaaaaa" "aaaaaaa\nbbbbbbb\n"
      "aaaaaaa" "* main\n" "Command failed (128): git rev-list" ["bbbbbbb"]
      rfl rfl (by decide) (by decide) rfl (by decide) rfl,
    identify_base_commit_spec.2.2 gitNoneLive "aaaaaaa" "aaaaaaa\nbbbbbbb\n"
      rfl rfl ?_⟩
  intro l hl
  fin_cases hl <;> rfl

/-- Appending one element to an interspersed list adds a separator exactly
when the list was non-empty. -/
theorem intersperse_concat {α : Type} (sep x : α) :
    ∀ l : List α, List.intersperse sep (l ++ [x]) =
      List.intersperse sep l ++ if l.isEmpty then [x] else [sep, x] := by
  intro l
  induction l with
  | nil => rfl
  | cons a t ih =>
    cases t with
    | nil => rfl
    | cons b t2 =>
      simp only [List.cons_append, List.intersperse_cons_cons] at ih ⊢
      rw [ih]
      simp

/-- The sink's append fold, started from a state holding the already-written
findings, counts exactly the successful appends and keeps the chunk sequence
comma-separated. -/
theorem sinkFold_spec (attempts : List (Json × Bool)) :
    ∀ written : List Json,
      attempts.foldl (fun st a => writeFindingToFile st a.1 a.2)
        ⟨written.length, Chunk.openB :: List.intersperse Chunk.comma (written.map Chunk.item)⟩ =
      ⟨(written ++ (attempts.filter (fun a => a.2)).map (fun a => a.1)).length,
        Chunk.openB :: List.intersperse Chunk.comma
          ((written ++ (attempts.filter (fun a => a.2)).map (fun a => a.1)).map Chunk.item)⟩ := by
  induction attempts with
  | nil => intro written; simp
  | cons a rest ih =>
    intro written
    rcases a with ⟨j, ok⟩
    cases ok with
    | false => exact ih written
    | true =>
      rw [List.foldl_cons]
      have hchunks : List.intersperse Chunk.comma (written.map Chunk.item) ++
          ((if 0 < written.length then [Chunk.comma] else []) ++ [Chunk.item j]) =
          List.intersperse Chunk.comma ((written ++ [j]).map Chunk.item) := by
        rw [show (written ++ [j]).map Chunk.item =
            written.map Chunk.item ++ [Chunk.item j] by simp]
        rw [intersperse_concat]
        cases written with
        | nil => simp
        | cons w ws => simp
      have hstep : writeFindingToFile
          ⟨written.length, Chunk.openB :: List.intersperse Chunk.comma (written.map Chunk.item)⟩
          j true =
          ⟨(written ++ [j]).length,
            Chunk.openB :: List.intersperse Chunk.comma ((written ++ [j]).map Chunk.item)⟩ := by
        rw [writeFindingToFile]
        congr 1
        · simp
        · rw [← hchunks]
          rfl
      dsimp only
      rw [hstep]
      have := ih (written ++ [j])
      rw [List.append_assoc] at this
      exact this

/-- C10: `write_finding_to_file` never propagates an exception to the
calling worker (a failing append leaves the sink state unchanged and is only
logged), the shared findings count equals the number of appends whose file
write completed without raising, and in the file the leading comma is
written exactly when the count is positive, so a whole run yields the
comma-separated chunk sequence of precisely the successful appends. -/
theorem write_finding_to_file_spec (attempts : List (Json × Bool)) :
    (∀ st j, writeFindingToFile st j false = st) ∧
    (sinkAppendPhase attempts).count = (attempts.filter (fun a => a.2)).length ∧
    (sinkAppendPhase attempts).chunks =
      Chunk.openB :: List.intersperse Chunk.comma
        (((attempts.filter (fun a => a.2)).map (fun a => a.1)).map Chunk.item) := by
  have hs : sinkAppendPhase attempts =
      ⟨(([] : List Json) ++ (attempts.filter (fun a => a.2)).map (fun a => a.1)).length,
        Chunk.openB :: List.intersperse Chunk.comma
          ((([] : List Json) ++ (attempts.filter (fun a => a.2)).map (fun a => a.1)).map
            Chunk.item)⟩ :=
    sinkFold_spec attempts []
  refine ⟨fun st j => rfl, ?_, ?_⟩
  · rw [hs]
    simp
  · rw [hs]
    rfl

/-- C7: a run of `scan_commits` during which zero findings are appended ends
with the backing result file deleted rather than left on disk as an empty
JSON array. -/
theorem findings_file_deleted_when_empty (attempts : List (Json × Bool))
    (h : ∀ a ∈ attempts, a.2 = false) : (sinkRun attempts).present = false := by
  have hcount : (sinkAppendPhase attempts).count = 0 := by
    have hs : sinkAppendPhase attempts =
        ⟨(([] : List Json) ++ (attempts.filter (fun a => a.2)).map (fun a => a.1)).length,
          Chunk.openB :: List.intersperse Chunk.comma
            ((([] : List Json) ++ (attempts.filter (fun a => a.2)).map (fun a => a.1)).map
              Chunk.item)⟩ :=
      sinkFold_spec attempts []
    rw [hs]
    simp only [List.nil_append, List.length_map]
    rw [List.filter_eq_nil_iff.mpr (fun a ha => by simp [h a ha])]
    rfl
  rw [sinkRun]
  simp [hcount]

/-- C7 witness: a run with one failing append attempt and no successful one
leaves no file. -/
theorem findings_file_deleted_when_empty_witness :
    (sinkRun [(Json.null, false)]).present = false :=
  findings_file_deleted_when_empty [(Json.null, false)] (by simp)

/-- C5: within one repository's worker, a base-resolution failure whose
message contains the remote-ref-not-found marker skips only that event (the
remaining events are still processed, the skipped event is counted but not
scanned), while any other resolution failure breaks out of the event loop:
no later event is attempted, and the worker still returns a normal result
triple (so sibling repositories are unaffected). -/
theorem scan_single_repo_event_failure_spec :
    (∀ (resolve : Nat → Except String String) (scan : Nat → Except PyExn (List Json))
        (b : String) (rest : List String) (idx : Nat) (msg : String) (r : LoopResult),
      shaFullmatch b = true →
      resolve idx = .error msg →
      strContains msg notOurRefMarker = true →
      eventLoop resolve scan rest (idx + 1) = .ok r →
      eventLoop resolve scan (b :: rest) idx =
        .ok { r with counter := r.counter + 1, attempted := idx :: r.attempted }) ∧
    (∀ (resolve : Nat → Except String String) (scan : Nat → Except PyExn (List Json))
        (b : String) (rest : List String) (idx : Nat) (msg : String),
      shaFullmatch b = true →
      resolve idx = .error msg →
      strContains msg notOurRefMarker = false →
      eventLoop resolve scan (b :: rest) idx = .ok ⟨1, [idx], [], 0, true⟩) ∧
    (∀ (url : String) (resolve : Nat → Except String String)
        (scan : Nat → Except PyExn (List Json)) (b : String) (rest : List String)
        (msg : String),
      shaFullmatch b = true →
      resolve 0 = .error msg →
      strContains msg notOurRefMarker = false →
      scanSingleRepo url (.ok ()) resolve scan (b :: rest) = .ok (url, 1, 0)) := by
  have habort : ∀ (resolve : Nat → Except String String)
      (scan : Nat → Except PyExn (List Json)) (b : String) (rest : List String)
      (idx : Nat) (msg : String),
      shaFullmatch b = true → resolve idx = .error msg →
      strContains msg notOurRefMarker = false →
      eventLoop resolve scan (b :: rest) idx = .ok ⟨1, [idx], [], 0, true⟩ := by
    intro resolve scan b rest idx msg hsha hres hstr
    rw [eventLoop, if_neg (show ¬((!shaFullmatch b) = true) by simp [hsha])]
    rw [hres]
    dsimp only
    rw [if_neg (show ¬(strContains msg notOurRefMarker = true) by simp [hstr])]
  refine ⟨?_, habort, ?_⟩
  · intro resolve scan b rest idx msg r hsha hres hstr hrest
    rw [eventLoop, if_neg (show ¬((!shaFullmatch b) = true) by simp [hsha])]
    rw [hres]
    dsimp only
    rw [if_pos hstr, hrest]
    rfl
  · intro url resolve scan b rest msg hsha hres hstr
    rw [scanSingleRepo]
    rw [habort resolve scan b rest 0 msg hsha hres hstr]
    rfl

/-- C5 witness: with event 0 failing on the not-our-ref marker, event 1 is
still scanned; with event 0 failing on another error, the loop aborts with
only event 0 counted and the worker returns `(url, 1, 0)`. -/
theorem scan_single_repo_event_failure_spec_witness :
    eventLoop
        (fun i => if i == 0 then
            .error "fatal: remote error: upload-pack: not our ref deadbee" else .ok "base")
        (fun _ => .ok []) ["abc1234", "def5678"] 0 =
      .ok { counter := 1 + 1, attempted := 0 :: [1], scanned := [1],
            findingsWritten := 0, aborted := false } ∧
    eventLoop (fun _ => .error "Command failed (128): git fetch")
        (fun _ => .ok []) ["abc1234", "def5678"] 0 =
      .ok ⟨1, [0], [], 0, true⟩ ∧
    scanSingleRepo "https://github.com/o/r" (.ok ())
        (fun _ => .error "Command failed (128): git fetch")
        (fun _ => .ok []) ["abc1234", "def5678"] = .ok ("https://github.com/o/r", 1, 0) := by
  refine ⟨?_, ?_, ?_⟩
  · exact scan_single_repo_event_failure_spec.1
      (fun i => if i == 0 then
          .error "fatal: remote error: upload-pack: not our ref deadbee" else .ok "base")
      (fun _ => .ok []) "abc1234" ["def5678"] 0
      "fatal: remote error: upload-pack: not our ref deadbee"
      ⟨1, [1], [1], 0, false⟩ (by decide) rfl (by decide) rfl
  · exact scan_single_repo_event_failure_spec.2.1
      (fun _ => .error "Command failed (128): git fetch") (fun _ => .ok [])
      "abc1234" ["def5678"] 0 "Command failed (128): git fetch"
      (by decide) rfl (by decide)
  · exact scan_single_repo_event_failure_spec.2.2
      "https://github.com/o/r" (fun _ => .error "Command failed (128): git fetch")
      (fun _ => .ok []) "abc1234" ["def5678"] "Command failed (128): git fetch"
      (by decide) rfl (by decide)

/-- C6: a repository whose clone step fails makes its worker return
`(repo_url, 0, 0)` immediately rather than raising, and the orchestrator's
collection loop completes regardless of failed or raising sibling tasks:
the aggregate equals the count of the successfully completed tasks paired
with the sum of their scanned-commit counts, so a failed task contributes
zero. -/
theorem scan_single_repo_clone_failure_spec :
    (∀ (url e : String) (resolve : Nat → Except String String)
        (scan : Nat → Except PyExn (List Json)) (befores : List String),
      scanSingleRepo url (.error e) resolve scan befores = .ok (url, 0, 0)) ∧
    (∀ tasks, aggregateTasks tasks =
      ((okTasks tasks).length, ((okTasks tasks).map (fun r => r.2.1)).sum)) := by
  refine ⟨fun url e resolve scan befores => rfl, ?_⟩
  intro tasks
  induction tasks with
  | nil => rfl
  | cons t rest ih =>
    cases t with
    | ok r =>
      rcases r with ⟨u, c, f⟩
      show ((aggregateTasks rest).1 + 1, (aggregateTasks rest).2 + c) =
        ((okTasks rest).length + 1, c + ((okTasks rest).map (fun r => r.2.1)).sum)
      rw [ih]
      simp only [Prod.mk.injEq]
      exact ⟨trivial, by omega⟩
    | error e => exact ih

/-- A call for an organization already in the notified set returns without
any side effect. -/
theorem notify_mem_noop (env : NotifyEnv) (st : List String) (org : String)
    (finding : Json) (h : org ∈ st) :
    sendImmediateNotification env st org finding = (st, false) := by
  rw [sendImmediateNotification]
  cases notifyValid finding with
  | error e => rfl
  | ok b =>
    cases b with
    | false => rfl
    | true =>
      dsimp only
      rw [if_pos h]

/-- One notification call never removes an organization from the notified
set. -/
theorem notify_set_monotone (env : NotifyEnv) (st : List String) (org o : String)
    (finding : Json) (h : o ∈ st) :
    o ∈ (sendImmediateNotification env st org finding).1 := by
  rw [sendImmediateNotification]
  cases notifyValid finding with
  | error e => exact h
  | ok b =>
    cases b with
    | false => exact h
    | true =>
      dsimp only
      by_cases hm : org ∈ st
      · rw [if_pos hm]; exact h
      · rw [if_neg hm]
        by_cases hcfg : env.chatId ≠ "" ∨ env.email ≠ ""
        · rw [if_pos hcfg]
          by_cases hsc : env.scriptExists = true
          · rw [if_pos hsc]; exact List.mem_cons_of_mem org h
          · rw [if_neg hsc]; exact List.mem_cons_of_mem org h
        · rw [if_neg hcfg]; exact List.mem_cons_of_mem org h

/-- A call for a different organization never inserts `org` into the
notified set. -/
theorem notify_preserves_not_mem (env : NotifyEnv) (st : List String)
    (org o : String) (f : Json) (hnm : org ∉ st) (ho : o ≠ org) :
    org ∉ (sendImmediateNotification env st o f).1 := by
  intro hcontra
  rw [sendImmediateNotification] at hcontra
  cases hv : notifyValid f with
  | error e => rw [hv] at hcontra; exact hnm hcontra
  | ok b =>
    cases b with
    | false => rw [hv] at hcontra; exact hnm hcontra
    | true =>
      rw [hv] at hcontra
      dsimp only at hcontra
      by_cases hm : o ∈ st
      · rw [if_pos hm] at hcontra; exact hnm hcontra
      · rw [if_neg hm] at hcontra
        have hoc : org ∈ o :: st := by
          by_cases hcfg : env.chatId ≠ "" ∨ env.email ≠ ""
          · rw [if_pos hcfg] at hcontra
            by_cases hsc : env.scriptExists = true
            · rw [if_pos hsc] at hcontra; exact hcontra
            · rw [if_neg hsc] at hcontra; exact hcontra
          · rw [if_neg hcfg] at hcontra; exact hcontra
        rcases List.mem_cons.mp hoc with h | h
        · exact ho h.symm
        · exact hnm h

/-- Once an organization is in the notified set, no later call fires for
it. -/
theorem notify_fires_zero_of_mem (env : NotifyEnv) (org : String) :
    ∀ (calls : List (String × Json)) (st : List String), org ∈ st →
      ((notifyRun env calls st).2.filter (fun o => o == org)).length = 0 := by
  intro calls
  induction calls with
  | nil => intro st _; rfl
  | cons c rest ih =>
    intro st hmem
    rcases c with ⟨o, f⟩
    rw [notifyRun]
    by_cases ho : o = org
    · subst ho
      rw [notify_mem_noop env st o f hmem]
      simpa using ih st hmem
    · have hmem' := notify_set_monotone env st o org f hmem
      dsimp only
      rw [List.filter_append, List.length_append]
      have h2 := ih _ hmem'
      have h1 : (List.filter (fun x => x == org)
          (if (sendImmediateNotification env st o f).2 = true then [o] else [])).length = 0 := by
        split
        · simp [ho]
        · rfl
      omega

/-- Regardless of environment and call sequence, the notifier fires at most
once per organization. -/
theorem notify_fires_at_most_once (env : NotifyEnv) (org : String) :
    ∀ (calls : List (String × Json)) (st : List String), org ∉ st →
      ((notifyRun env calls st).2.filter (fun o => o == org)).length ≤ 1 := by
  intro calls
  induction calls with
  | nil => intro st _; simp [notifyRun]
  | cons c rest ih =>
    intro st hnm
    rcases c with ⟨o, f⟩
    rw [notifyRun]
    dsimp only
    rw [List.filter_append, List.length_append]
    by_cases ho : o = org
    · subst ho
      rw [sendImmediateNotification]
      cases hv : notifyValid f with
      | error e =>
        simpa using ih st hnm
      | ok b =>
        cases b with
        | false => simpa using ih st hnm
        | true =>
          dsimp only
          rw [if_neg hnm]
          have hmem : o ∈ o :: st := List.mem_cons_self o st
          split
          · split
            · have := notify_fires_zero_of_mem env o rest (o :: st) hmem
              simp only [this]
              simp
            · have := notify_fires_zero_of_mem env o rest (o :: st) hmem
              simp only [this]
              simp
          · have := notify_fires_zero_of_mem env o rest (o :: st) hmem
            simp only [this]
            simp
    · have h1 : (List.filter (fun x => x == org)
          (if (sendImmediateNotification env st o f).2 = true then [o] else [])).length = 0 := by
        split
        · simp [ho]
        · rfl
      have hnm' : org ∉ (sendImmediateNotification env st o f).1 :=
        notify_preserves_not_mem env st org o f hnm ho
      have h2 := ih _ hnm'
      omega

/-- An organization with no calls never fires. -/
theorem notify_fires_zero_without_calls (env : NotifyEnv) (org : String) :
    ∀ (calls : List (String × Json)) (st : List String),
      org ∉ calls.map Prod.fst →
      ((notifyRun env calls st).2.filter (fun o => o == org)).length = 0 := by
  intro calls
  induction calls with
  | nil => intro st _; rfl
  | cons c rest ih =>
    intro st hno
    rcases c with ⟨o, f⟩
    simp only [List.map_cons, List.mem_cons, not_or] at hno
    rw [notifyRun]
    dsimp only
    rw [List.filter_append, List.length_append]
    have h1 : (List.filter (fun x => x == org)
        (if (sendImmediateNotification env st o f).2 = true then [o] else [])).length = 0 := by
      split
      · simp only [List.filter_cons, List.filter_nil]
        rw [if_neg (by simp; exact fun h => hno.1 h.symm)]
        rfl
      · rfl
    have h2 := ih ((sendImmediateNotification env st o f).1) (by simpa using hno.2)
    omega

/-- With a notification method configured and the script present, the first
call whose finding passes the validation fires. -/
theorem notify_fires_once_of_valid (env : NotifyEnv) (org : String)
    (hcfg : env.chatId ≠ "" ∨ env.email ≠ "") (hscript : env.scriptExists = true) :
    ∀ (calls : List (String × Json)) (st : List String), org ∉ st →
      (∃ c ∈ calls, c.1 = org ∧ notifyValid c.2 = .ok true) →
      ((notifyRun env calls st).2.filter (fun o => o == org)).length = 1 := by
  intro calls
  induction calls with
  | nil => intro st _ hex; simp at hex
  | cons c rest ih =>
    intro st hnm hex
    rcases c with ⟨o, f⟩
    rw [notifyRun]
    dsimp only
    rw [List.filter_append, List.length_append]
    by_cases ho : o = org
    · subst ho
      cases hv : notifyValid f with
      | error e =>
        have h1 : sendImmediateNotification env st o f = (st, false) := by
          rw [sendImmediateNotification, hv]
        rw [h1]
        have hex' : ∃ c ∈ rest, c.1 = o ∧ notifyValid c.2 = .ok true := by
          rcases hex with ⟨c, hc, hc1, hc2⟩
          rcases List.mem_cons.mp hc with rfl | hcr
          · rw [hv] at hc2; exact absurd hc2 (by simp)
          · exact ⟨c, hcr, hc1, hc2⟩
        simpa using ih st hnm hex'
      | ok b =>
        cases b with
        | false =>
          have h1 : sendImmediateNotification env st o f = (st, false) := by
            rw [sendImmediateNotification, hv]
          rw [h1]
          have hex' : ∃ c ∈ rest, c.1 = o ∧ notifyValid c.2 = .ok true := by
            rcases hex with ⟨c, hc, hc1, hc2⟩
            rcases List.mem_cons.mp hc with rfl | hcr
            · rw [hv] at hc2; exact absurd hc2 (by simp)
            · exact ⟨c, hcr, hc1, hc2⟩
          simpa using ih st hnm hex'
        | true =>
          have h1 : sendImmediateNotification env st o f = (o :: st, true) := by
            rw [sendImmediateNotification, hv]
            dsimp only
            rw [if_neg hnm, if_pos hcfg, if_pos hscript]
          rw [h1]
          have hz := notify_fires_zero_of_mem env o rest (o :: st) (List.mem_cons_self o st)
          simp only [hz]
          simp
    · have h1 : (List.filter (fun x => x == org)
          (if (sendImmediateNotification env st o f).2 = true then [o] else [])).length = 0 := by
        split
        · simp [ho]
        · rfl
      have hnm' : org ∉ (sendImmediateNotification env st o f).1 :=
        notify_preserves_not_mem env st org o f hnm ho
      have hex' : ∃ c ∈ rest, c.1 = org ∧ notifyValid c.2 = .ok true := by
        rcases hex with ⟨c, hc, hc1, hc2⟩
        rcases List.mem_cons.mp hc with rfl | hcr
        · exact absurd hc1 ho
        · exact ⟨c, hcr, hc1, hc2⟩
      have h2 := ih _ hnm' hex'
      omega

/-- C8 (amended): across any sequence of notification calls the side effect
fires at most once per organization, and zero times for organizations with
no findings; once an organization is in the notified set every subsequent
call for it returns without side effect (the check-and-insert runs under the
lock). It fires exactly once for an organization only when additionally a
notification method is configured, the notifier script exists on disk, and
some finding for that organization passes the notification validation;
otherwise it can fire zero times even for an organization with findings —
see the counterexample. -/
theorem notification_gate_spec (env : NotifyEnv) (calls : List (String × Json))
    (org : String) :
    fireCount env calls org ≤ 1 ∧
    (org ∉ calls.map Prod.fst → fireCount env calls org = 0) ∧
    (∀ st f, org ∈ st → sendImmediateNotification env st org f = (st, false)) ∧
    ((env.chatId ≠ "" ∨ env.email ≠ "") → env.scriptExists = true →
      (∃ c ∈ calls, c.1 = org ∧ notifyValid c.2 = .ok true) →
      fireCount env calls org = 1) :=
  ⟨notify_fires_at_most_once env org calls [] (by simp),
    fun h => notify_fires_zero_without_calls env org calls [] h,
    fun st f h => notify_mem_noop env st org f h,
    fun hcfg hsc hex => notify_fires_once_of_valid env org hcfg hsc calls [] (by simp) hex⟩

/-- C8 witness: with a chat id configured, the script present and one fully
valid finding, the organization fires exactly once. -/
theorem notification_gate_spec_witness :
    fireCount envConfigured [("acme", notifyOkFinding)] "acme" = 1 :=
  (notification_gate_spec envConfigured [("acme", notifyOkFinding)] "acme").2.2.2
    (Or.inl (by decide)) rfl
    ⟨("acme", notifyOkFinding), List.mem_singleton.mpr rfl, rfl, rfl⟩

/-- C8 counterexample: organizations with findings for which the notifier
fires zero times. `notifyNoRawFinding` passes the scanner's persistence
filter, so `orgA` has a (persisted) finding, yet notification validation
rejects it for lacking raw secret content; `orgB` has a fully valid finding
but no notification method is configured (the organization is still marked
notified); `orgC` has a valid finding and a configured method but the
notifier script is missing. In each case the fire count is 0, refuting
`fires exactly once per organization with findings`. -/
theorem notification_gate_counterexample :
    keepFinding notifyNoRawFinding = true ∧
    fireCount envConfigured [("orgA", notifyNoRawFinding)] "orgA" = 0 ∧
    fireCount envUnconfigured [("orgB", notifyOkFinding)] "orgB" = 0 ∧
    fireCount envNoScript [("orgC", notifyOkFinding)] "orgC" = 0 :=
  ⟨rfl, rfl, rfl, rfl⟩

/-- A row that `_validate_row` accepts has a `repo_org` field whose stripped
string form equals `input_org`. -/
theorem validateRow_ok_org (inputOrg : String) (row : Row) (idx : Nat)
    (res : String × String × String × Int)
    (h : validateRow inputOrg row idx = .ok res) :
    ∃ v, rowGet row "repo_org" = some v ∧ pyStrip (pyValStr v) = inputOrg := by
  rw [validateRow] at h
  by_cases hm : (expectedFields.all (fun k => (rowGet row k).isSome)) = true
  · rw [if_neg (by simp [hm])] at h
    have horg : (rowGet row "repo_org").isSome := by
      have := List.all_eq_true.mp hm "repo_org" (by simp [expectedFields])
      simpa using this
    rcases Option.isSome_iff_exists.mp horg with ⟨v, hv⟩
    refine ⟨v, hv, ?_⟩
    rw [hv] at h
    dsimp only [Option.getD] at h
    by_cases h1 : pyStrip (pyValStr v) = ""
    · rw [if_pos h1] at h; exact absurd h (by simp)
    · rw [if_neg h1] at h
      by_cases h2 : pyStrip (pyValStr v) ≠ inputOrg
      · rw [if_pos h2] at h; exact absurd h (by simp)
      · exact not_not.mp h2
  · rw [if_pos (by simpa using hm)] at h
    exact absurd h (by simp)

/-- A mismatched row anywhere in the list terminates the gathering loop with
an error. -/
theorem gatherLoop_error_of_mismatch (inputOrg : String) :
    ∀ (rows : List Row) (idx : Nat),
      (∃ r ∈ rows, ∃ v, rowGet r "repo_org" = some v ∧
        pyStrip (pyValStr v) ≠ inputOrg) →
      ∃ e, gatherLoop inputOrg rows idx = .error e := by
  intro rows
  induction rows with
  | nil => intro idx hex; simp at hex
  | cons r rest ih =>
    intro idx hex
    rw [gatherLoop]
    cases hv : validateRow inputOrg r idx with
    | error e => exact ⟨e, rfl⟩
    | ok res =>
      rcases hex with ⟨r', hr', v, hgv, hne⟩
      rcases List.mem_cons.mp hr' with rfl | hr'
      · rcases validateRow_ok_org inputOrg r' idx res hv with ⟨v', hgv', heq⟩
        rw [hgv] at hgv'
        rw [← Option.some.inj hgv'] at heq
        exact absurd heq hne
      · rcases ih (idx + 1) ⟨r', hr', v, hgv, hne⟩ with ⟨e, he⟩
        refine ⟨e, ?_⟩
        rcases res with ⟨ro, rn, before, ts⟩
        dsimp only
        rw [he]
        rfl

/-- C9: a row whose (stripped) `repo_org` differs from the organization
being scanned makes `_gather_from_iter` terminate the program (modelled as
an error) before any scanning starts, regardless of the other rows; and a
batch yielding zero events is likewise rejected. -/
theorem gather_rejects_mismatch_and_empty :
    (∀ (inputOrg : String) (rows : List Row),
      (∃ r ∈ rows, ∃ v, rowGet r "repo_org" = some v ∧
        pyStrip (pyValStr v) ≠ inputOrg) →
      ∃ e, gatherFromIter inputOrg rows = .error e) ∧
    (∀ inputOrg : String, gatherFromIter inputOrg [] =
      .error "No force-push events found for that user – dataset empty") := by
  constructor
  · intro inputOrg rows hex
    rcases gatherLoop_error_of_mismatch inputOrg rows 1 hex with ⟨e, he⟩
    refine ⟨e, ?_⟩
    rw [gatherFromIter]
    dsimp only [bind, Except.bind]
    rw [he]
  · intro inputOrg; rfl

/-- C9 witness: a batch holding one otherwise well-formed row whose
`repo_org` is `otherorg` is rejected when scanning `octo`, and the empty
batch is rejected too. -/
theorem gather_rejects_mismatch_and_empty_witness :
    (∃ e, gatherFromIter "octo" [rowOtherOrg] = .error e) ∧
    gatherFromIter "octo" [] =
      .error "No force-push events found for that user – dataset empty" :=
  ⟨gather_rejects_mismatch_and_empty.1 "octo" [rowOtherOrg]
      ⟨rowOtherOrg, List.mem_singleton.mpr rfl, .s "otherorg", rfl, by decide⟩,
    gather_rejects_mismatch_and_empty.2 "octo"⟩

end ForcePushScanner
